import Mathlib

/-!
Verification of the optimistic block-editor against its specification.

This file shallowly embeds the parts of the repository that the verified
properties speak about:

* the JS string operations the code uses (`trim`, `startsWith`), modelled over
  the character list of a `String`;
* the data model (`Block`, `Page`) from `src/lib/types`;
* a small model of the JS values the validators inspect (`JSNum`, `JSVal`),
  enough to express `typeof`, truthiness, `Array.isArray`, `isFinite` and the
  field accesses the validators perform;
* the client-side validator `validateBlockEdit` (src/lib/client/validation.ts),
  the shared server validator `validateBlockInput` (lib/server/validation.ts)
  and the inline per-block validation of the single-page update endpoint
  (`PUT /api/pages/[id]`);
* the optimistic mutation coordinator handlers of the main page component
  (`updatePageBlocks`, `handleDrop`, `handleCreatePage`, title-save handlers);
* the server route handlers for pages (`GET`/`POST /api/pages`,
  `PUT /api/pages/[id]`) and the bulk block-reorder handler
  (`PUT /api/blocks`).
-/

/-! ## JS string operations -/

/-- Characters removed by the JS `String.prototype.trim` (the whitespace kinds
relevant to this code base). -/
def jsWhitespaceChar (c : Char) : Bool :=
  c == ' ' || c == '\t' || c == '\n' || c == '\r'

/-- Model of JS `s.trim()`: drop whitespace from both ends.  Defined over the
character list so that it evaluates inside the kernel. -/
def jsTrim (s : String) : String :=
  ⟨((s.data.dropWhile jsWhitespaceChar).reverse.dropWhile jsWhitespaceChar).reverse⟩

/-- Model of JS `s.startsWith(p)`. -/
def jsStartsWith (s p : String) : Bool :=
  p.data.isPrefixOf s.data

/-! ## Data model (src/lib/types, src/unnamed/part_000)

`TextBlock`/`ImageBlock` form a discriminated union on `type`; we embed the
union as a two-constructor inductive.  Image dimensions are numbers; validated
images always carry finite numbers, which we represent as rationals. -/

/-- `TextStyles.variant`: one of `h1 | h2 | h3 | paragraph`. -/
inductive TextVariant where
  | h1
  | h2
  | h3
  | paragraph
deriving DecidableEq, Repr

/-- `Block = TextBlock | ImageBlock` from `src/lib/types`. -/
inductive Block where
  | text (id : String) (content : String) (variant : TextVariant)
  | image (id : String) (content : String) (width height : ℚ)
deriving DecidableEq, Repr

/-- The shared `id` field of either block variant. -/
def Block.id : Block → String
  | .text id _ _ => id
  | .image id _ _ _ => id

/-- `Page { id, title, blocks }` from `src/lib/types`. -/
structure Page where
  id : String
  title : String
  blocks : List Block
deriving DecidableEq, Repr

/-! ## JS values, as far as the validators inspect them -/

/-- A JS number: either a finite value (modelled as a rational) or one of the
non-finite values `Infinity`, `-Infinity`, `NaN`. -/
inductive JSNum where
  | finite (q : ℚ)
  | posInf
  | negInf
  | nan
deriving DecidableEq

/-- JS `isFinite(n)`. -/
def JSNum.isFinite : JSNum → Bool
  | .finite _ => true
  | _ => false

/-- JS `n <= 0` (false on `NaN`, true on `-Infinity`). -/
def JSNum.leZero : JSNum → Bool
  | .finite q => decide (q ≤ 0)
  | .posInf => false
  | .negInf => true
  | .nan => false

/-- A JS value, restricted to the shapes the validators can observe.  JSON
arrays carry no named properties, so `varr` needs no field payload; `vobj`
carries exactly the three fields any of the validators ever reads
(`variant`, `width`, `height`), each possibly `undefined`. -/
inductive JSVal where
  | vstr (s : String)
  | vnum (n : JSNum)
  | vbool (b : Bool)
  | vnull
  | vundefined
  | varr
  | vobj (variant width height : JSVal)
deriving DecidableEq

/-- JS truthiness. -/
def JSVal.truthy : JSVal → Bool
  | .vstr s => s != ""
  | .vnum n =>
    match n with
    | .finite q => decide (q ≠ 0)
    | .nan => false
    | _ => true
  | .vbool b => b
  | .vnull => false
  | .vundefined => false
  | .varr => true
  | .vobj _ _ _ => true

/-- `typeof v === 'string'`. -/
def JSVal.isStr : JSVal → Bool
  | .vstr _ => true
  | _ => false

/-- `typeof v === 'number'`. -/
def JSVal.isNum : JSVal → Bool
  | .vnum _ => true
  | _ => false

/-- `typeof v === 'object'` (true for `null`, arrays and plain objects). -/
def JSVal.typeofObject : JSVal → Bool
  | .vnull => true
  | .varr => true
  | .vobj _ _ _ => true
  | _ => false

/-- `Array.isArray(v)`. -/
def JSVal.isArrayVal : JSVal → Bool
  | .varr => true
  | _ => false

/-- The string payload, after a `typeof v === 'string'` check has passed. -/
def JSVal.asStr : JSVal → String
  | .vstr s => s
  | _ => ""

/-- The numeric payload, after a `typeof v === 'number'` check has passed. -/
def JSVal.asNum : JSVal → JSNum
  | .vnum n => n
  | _ => .nan

/-- Property access `v.variant` (undefined on non-objects and on arrays). -/
def JSVal.fieldVariant : JSVal → JSVal
  | .vobj v _ _ => v
  | _ => .vundefined

/-- Property access `v.width`. -/
def JSVal.fieldWidth : JSVal → JSVal
  | .vobj _ w _ => w
  | _ => .vundefined

/-- Property access `v.height`. -/
def JSVal.fieldHeight : JSVal → JSVal
  | .vobj _ _ h => h
  | _ => .vundefined

/-- The `validVariants` list used by all three validators. -/
def validVariants : List JSVal :=
  [.vstr "h1", .vstr "h2", .vstr "h3", .vstr "paragraph"]

/-! ## The three block validators -/

/-- `validateBlockEdit` from src/lib/client/validation.ts, lines 12-63,
as a function of the three arguments it receives. -/
def validateBlockEdit (type content styles : JSVal) : Option String :=
  if !(type == .vstr "text") && !(type == .vstr "image") then
    some "Invalid type: must be \"text\" or \"image\""
  else if !content.isStr then
    some "Invalid content: must be a string"
  else if type == .vstr "image"
      && !(jsStartsWith content.asStr "http://") && !(jsStartsWith content.asStr "https://") then
    some "Image URL must start with http:// or https://"
  else if !styles.truthy || !styles.typeofObject then
    some "Invalid styles: must be an object"
  else if type == .vstr "text" then
    if !styles.fieldVariant.truthy || !(validVariants.contains styles.fieldVariant) then
      some "Invalid text variant: must be one of h1, h2, h3, or paragraph"
    else none
  else if type == .vstr "image" then
    if !styles.fieldWidth.isNum || !styles.fieldWidth.asNum.isFinite
        || styles.fieldWidth.asNum.leZero then
      some "Width must be a positive number"
    else if !styles.fieldHeight.isNum || !styles.fieldHeight.asNum.isFinite
        || styles.fieldHeight.asNum.leZero then
      some "Height must be a positive number"
    else none
  else none

/-- `validateBlockInput` from lib/server/validation.ts (src/unnamed/part_000,
lines 8-52), as a function of the three body fields it reads. -/
def validateBlockInput (type content styles : JSVal) : Option String :=
  if !type.truthy || (!(type == .vstr "text") && !(type == .vstr "image")) then
    some "Invalid type: must be \"text\" or \"image\""
  else if !content.isStr then
    some "Invalid content: must be a string"
  else if type == .vstr "image"
      && !(jsStartsWith content.asStr "http://") && !(jsStartsWith content.asStr "https://") then
    some "Invalid image content: must be a URL starting with http:// or https://"
  else if !styles.truthy || !styles.typeofObject || styles.isArrayVal then
    some "Invalid styles: must be an object"
  else if type == .vstr "text" then
    if !(validVariants.contains styles.fieldVariant) then
      some "Invalid text variant: must be one of h1, h2, h3, paragraph"
    else none
  else if type == .vstr "image" then
    if !styles.fieldWidth.isNum || !styles.fieldWidth.asNum.isFinite
        || styles.fieldWidth.asNum.leZero then
      some "Invalid image width: must be a positive finite number"
    else if !styles.fieldHeight.isNum || !styles.fieldHeight.asNum.isFinite
        || styles.fieldHeight.asNum.leZero then
      some "Invalid image height: must be a positive finite number"
    else none
  else none

/-- The per-block validation performed inline by `PUT /api/pages/[id]`
(src/unnamed/part_006, lines 88-132), restricted to the `type`, `content` and
`styles` fields of a block (the preceding object/id checks of that loop do not
bear on these three fields).  Note: this copy has no URL check for image
content and no `isFinite` check on `width`/`height`. -/
def putPageBlockCheck (type content styles : JSVal) : Option String :=
  if !(type == .vstr "text") && !(type == .vstr "image") then
    some "Block type must be \"text\" or \"image\""
  else if !content.isStr then
    some "Each block must have a string content"
  else if !styles.truthy || !styles.typeofObject then
    some "Each block must have a styles object"
  else if type == .vstr "text" then
    if !(validVariants.contains styles.fieldVariant) then
      some "Text block must have a valid variant (h1, h2, h3, or paragraph)"
    else none
  else if type == .vstr "image" then
    if !styles.fieldWidth.isNum || styles.fieldWidth.asNum.leZero then
      some "Image block must have a positive number width"
    else if !styles.fieldHeight.isNum || styles.fieldHeight.asNum.leZero then
      some "Image block must have a positive number height"
    else none
  else none

/-- Image styles object `{ width, height }` as a JS value. -/
def imageStylesVal (w h : JSVal) : JSVal :=
  .vobj .vundefined w h

/-- Text styles object `{ variant }` as a JS value. -/
def textStylesVal (v : JSVal) : JSVal :=
  .vobj v .vundefined .vundefined

/-! ## Validator claims -/

/-- C5: boundary values of the block validators (both the client-side
`validateBlockEdit` and the shared server `validateBlockInput`): for image
blocks, `width = 0`, `width = -5`, `width = Infinity` and `width = "600"`
(a string) each fail validation while `width = 1` passes; an image content of
`"ftp://x.png"` fails while `"https://x.png"` passes; a text block with
content `""` passes. -/
theorem validator_boundary_values :
    (validateBlockEdit (.vstr "image") (.vstr "https://x.png")
        (imageStylesVal (.vnum (.finite 0)) (.vnum (.finite 100))) ≠ none
      ∧ validateBlockInput (.vstr "image") (.vstr "https://x.png")
        (imageStylesVal (.vnum (.finite 0)) (.vnum (.finite 100))) ≠ none)
    ∧ (validateBlockEdit (.vstr "image") (.vstr "https://x.png")
        (imageStylesVal (.vnum (.finite (-5))) (.vnum (.finite 100))) ≠ none
      ∧ validateBlockInput (.vstr "image") (.vstr "https://x.png")
        (imageStylesVal (.vnum (.finite (-5))) (.vnum (.finite 100))) ≠ none)
    ∧ (validateBlockEdit (.vstr "image") (.vstr "https://x.png")
        (imageStylesVal (.vnum .posInf) (.vnum (.finite 100))) ≠ none
      ∧ validateBlockInput (.vstr "image") (.vstr "https://x.png")
        (imageStylesVal (.vnum .posInf) (.vnum (.finite 100))) ≠ none)
    ∧ (validateBlockEdit (.vstr "image") (.vstr "https://x.png")
        (imageStylesVal (.vstr "600") (.vnum (.finite 100))) ≠ none
      ∧ validateBlockInput (.vstr "image") (.vstr "https://x.png")
        (imageStylesVal (.vstr "600") (.vnum (.finite 100))) ≠ none)
    ∧ (validateBlockEdit (.vstr "image") (.vstr "https://x.png")
        (imageStylesVal (.vnum (.finite 1)) (.vnum (.finite 1))) = none
      ∧ validateBlockInput (.vstr "image") (.vstr "https://x.png")
        (imageStylesVal (.vnum (.finite 1)) (.vnum (.finite 1))) = none)
    ∧ (validateBlockEdit (.vstr "image") (.vstr "ftp://x.png")
        (imageStylesVal (.vnum (.finite 1)) (.vnum (.finite 1))) ≠ none
      ∧ validateBlockInput (.vstr "image") (.vstr "ftp://x.png")
        (imageStylesVal (.vnum (.finite 1)) (.vnum (.finite 1))) ≠ none)
    ∧ (validateBlockEdit (.vstr "text") (.vstr "")
        (textStylesVal (.vstr "paragraph")) = none
      ∧ validateBlockInput (.vstr "text") (.vstr "")
        (textStylesVal (.vstr "paragraph")) = none) := by
  decide

/-- C4 (counterexample): the client-side validator and the block validation
inside the single-page update endpoint do NOT accept or reject identically.
For an image block with `width = Infinity` (finite `height`, well-formed
`https` URL) the client validator rejects while the persistence boundary of
`PUT /api/pages/[id]` accepts, because that inline copy has no `isFinite`
check. -/
theorem validators_differ_on_nonfinite_width :
    validateBlockEdit (.vstr "image") (.vstr "https://x.png")
      (imageStylesVal (.vnum .posInf) (.vnum (.finite 1))) ≠ none
    ∧ putPageBlockCheck (.vstr "image") (.vstr "https://x.png")
      (imageStylesVal (.vnum .posInf) (.vnum (.finite 1))) = none := by
  decide

/-- C4 (amended): the two call sites do not reject identically; instead the
client-side validator is strictly stronger than the block validation of the
single-page update endpoint: every candidate block input the client validator
accepts is also accepted at the persistence boundary, but not conversely (the
boundary additionally accepts non-finite `width`/`height` such as `Infinity`,
and image content that is not an `http(s)` URL). -/
theorem clientValidator_stronger_than_putBoundary (t c s : JSVal)
    (h : validateBlockEdit t c s = none) :
    putPageBlockCheck t c s = none := by
  unfold validateBlockEdit at h
  unfold putPageBlockCheck
  split_ifs at h <;> simp_all

/-- Witness for `clientValidator_stronger_than_putBoundary` at a concrete
accepted input. -/
theorem clientValidator_stronger_than_putBoundary_witness :
    validateBlockEdit (.vstr "text") (.vstr "hello")
      (textStylesVal (.vstr "h1")) = none
    ∧ putPageBlockCheck (.vstr "text") (.vstr "hello")
      (textStylesVal (.vstr "h1")) = none :=
  ⟨by decide, clientValidator_stronger_than_putBoundary _ _ _ (by decide)⟩

/-! ## Drag-and-drop reorder (handleDrop, src/unnamed/part_008 lines 686-731) -/

/-- The `dropPosition` state: `'before' | 'after'` (the state can also be
`null`, modelled by wrapping in `Option`). -/
inductive DropSide where
  | before
  | after
deriving DecidableEq, Repr

/-- The reorder computation of `handleDrop`: look up the indices of the
dragged and target blocks, remove the dragged block, compute the insertion
index (adjusting by one when the dragged block's original index was less than
the target's), and reinsert.  Early-return paths (no dragged id, dragged id
equals target, id not found) leave the list unchanged.  JS `findIndex`
returns `-1` when absent; `List.findIdx` returns the length, so the `=== -1`
guard becomes a `≥ length` guard. -/
def handleDropReorder (blocks : List Block) (draggedBlockId : Option String)
    (targetId : String) (dropPosition : Option DropSide) : List Block :=
  match draggedBlockId with
  | none => blocks
  | some draggedId =>
    if draggedId = targetId then blocks
    else
      let draggedIndex := blocks.findIdx (fun b => b.id == draggedId)
      let targetIndex := blocks.findIdx (fun b => b.id == targetId)
      if draggedIndex ≥ blocks.length ∨ targetIndex ≥ blocks.length then blocks
      else
        match blocks[draggedIndex]? with
        | none => blocks
        | some draggedBlock =>
          let reorderedBlocks := blocks.eraseIdx draggedIndex
          let insertIndex :=
            if dropPosition = some DropSide.after then
              if draggedIndex < targetIndex then targetIndex else targetIndex + 1
            else
              if draggedIndex < targetIndex then targetIndex - 1 else targetIndex
          reorderedBlocks.insertIdx insertIndex draggedBlock

/-! ## Index bookkeeping lemmas for the reorder proof -/

/-- The element inserted at index `n` is found at index `n`. -/
lemma insertIdx_getElem_self_opt (l : List Block) (x : Block) (n : Nat) (hn : n ≤ l.length) :
    (l.insertIdx n x)[n]? = some x := by
  rw [List.getElem?_eq_getElem (by rw [List.length_insertIdx _ _ hn]; omega)]
  exact congrArg some (List.getElem_insertIdx_self l x n hn)

lemma insertIdx_getElem_succ_opt (l : List Block) (x : Block) (n : Nat) (hn : n < l.length) :
    (l.insertIdx n x)[n + 1]? = some l[n] := by
  have h := List.getElem_insertIdx_add_succ l x n 0 (by omega)
  rw [List.getElem?_eq_getElem (by rw [List.length_insertIdx _ _ (by omega)]; omega)]
  simpa using h

lemma insertIdx_getElem_lt_opt (l : List Block) (x : Block) (n k : Nat) (hn : n ≤ l.length)
    (hk : k < n) (hk2 : k < l.length) :
    (l.insertIdx n x)[k]? = some l[k] := by
  rw [List.getElem?_eq_getElem (by rw [List.length_insertIdx _ _ hn]; omega)]
  exact congrArg some (List.getElem_insertIdx_of_lt l x n k hk hk2)


lemma handleDropReorder_before_adjacent (blocks : List Block) (draggedId targetId : String)
    (hne : draggedId ≠ targetId)
    (hd : ∃ b ∈ blocks, b.id = draggedId) (ht : ∃ b ∈ blocks, b.id = targetId) :
    ∃ i db tb, db.id = draggedId ∧ tb.id = targetId ∧
      (handleDropReorder blocks (some draggedId) targetId (some DropSide.before))[i]? = some db ∧
      (handleDropReorder blocks (some draggedId) targetId (some DropSide.before))[i + 1]? = some tb := by
  obtain ⟨bd, hbd, hbdid⟩ := hd
  obtain ⟨bt, hbt, hbtid⟩ := ht
  have hdex : ∃ x ∈ blocks, (fun b => b.id == draggedId) x := ⟨bd, hbd, by simp [hbdid]⟩
  have htex : ∃ x ∈ blocks, (fun b => b.id == targetId) x := ⟨bt, hbt, by simp [hbtid]⟩
  have hdi : blocks.findIdx (fun b => b.id == draggedId) < blocks.length :=
    List.findIdx_lt_length_of_exists hdex
  have hti : blocks.findIdx (fun b => b.id == targetId) < blocks.length :=
    List.findIdx_lt_length_of_exists htex
  simp only [handleDropReorder]
  set di := blocks.findIdx (fun b => b.id == draggedId) with hdidef
  set ti := blocks.findIdx (fun b => b.id == targetId) with htidef
  have hdid : blocks[di].id = draggedId := by
    have hp := List.findIdx_of_getElem?_eq_some (List.getElem?_eq_getElem hdi)
    simpa using hp
  have htid : blocks[ti].id = targetId := by
    have hp := List.findIdx_of_getElem?_eq_some (List.getElem?_eq_getElem hti)
    simpa using hp
  have hdt : di ≠ ti := by
    intro h
    have h2 : blocks[di]? = blocks[ti]? := by rw [h]
    rw [List.getElem?_eq_getElem hdi, List.getElem?_eq_getElem hti] at h2
    exact hne (hdid ▸ htid ▸ congrArg Block.id (Option.some.inj h2))
  have hguard : ¬(di ≥ blocks.length ∨ ti ≥ blocks.length) := by omega
  have hlenE : (blocks.eraseIdx di).length = blocks.length - 1 :=
    List.length_eraseIdx_of_lt hdi
  rw [if_neg hne, if_neg hguard, List.getElem?_eq_getElem hdi]
  simp only [Option.some.injEq, reduceCtorEq, if_false]
  rcases Nat.lt_or_ge di ti with hlt | hge
  · refine ⟨ti - 1, blocks[di], blocks[ti], hdid, htid, ?_, ?_⟩
    · rw [if_pos hlt]
      exact insertIdx_getElem_self_opt _ _ _ (by omega)
    · rw [if_pos hlt]
      have h1 : (blocks.eraseIdx di)[ti - 1] = blocks[ti] := by
        have h2 := List.getElem_eraseIdx_of_ge blocks di (ti - 1) (by omega) (by omega)
        rw [h2]
        congr 1
        omega
      rw [insertIdx_getElem_succ_opt _ _ _ (by omega), h1]
  · have hlt2 : ti < di := by omega
    refine ⟨ti, blocks[di], blocks[ti], hdid, htid, ?_, ?_⟩
    · rw [if_neg (by omega)]
      exact insertIdx_getElem_self_opt _ _ _ (by omega)
    · rw [if_neg (by omega)]
      have h1 : (blocks.eraseIdx di)[ti] = blocks[ti] :=
        List.getElem_eraseIdx_of_lt blocks di ti (by omega) hlt2
      rw [insertIdx_getElem_succ_opt _ _ _ (by omega), h1]

lemma handleDropReorder_after_adjacent (blocks : List Block) (draggedId targetId : String)
    (hne : draggedId ≠ targetId)
    (hd : ∃ b ∈ blocks, b.id = draggedId) (ht : ∃ b ∈ blocks, b.id = targetId) :
    ∃ i db tb, db.id = draggedId ∧ tb.id = targetId ∧
      (handleDropReorder blocks (some draggedId) targetId (some DropSide.after))[i]? = some tb ∧
      (handleDropReorder blocks (some draggedId) targetId (some DropSide.after))[i + 1]? = some db := by
  obtain ⟨bd, hbd, hbdid⟩ := hd
  obtain ⟨bt, hbt, hbtid⟩ := ht
  have hdex : ∃ x ∈ blocks, (fun b => b.id == draggedId) x := ⟨bd, hbd, by simp [hbdid]⟩
  have htex : ∃ x ∈ blocks, (fun b => b.id == targetId) x := ⟨bt, hbt, by simp [hbtid]⟩
  have hdi : blocks.findIdx (fun b => b.id == draggedId) < blocks.length :=
    List.findIdx_lt_length_of_exists hdex
  have hti : blocks.findIdx (fun b => b.id == targetId) < blocks.length :=
    List.findIdx_lt_length_of_exists htex
  simp only [handleDropReorder]
  set di := blocks.findIdx (fun b => b.id == draggedId) with hdidef
  set ti := blocks.findIdx (fun b => b.id == targetId) with htidef
  have hdid : blocks[di].id = draggedId := by
    have hp := List.findIdx_of_getElem?_eq_some (List.getElem?_eq_getElem hdi)
    simpa using hp
  have htid : blocks[ti].id = targetId := by
    have hp := List.findIdx_of_getElem?_eq_some (List.getElem?_eq_getElem hti)
    simpa using hp
  have hdt : di ≠ ti := by
    intro h
    have h2 : blocks[di]? = blocks[ti]? := by rw [h]
    rw [List.getElem?_eq_getElem hdi, List.getElem?_eq_getElem hti] at h2
    exact hne (hdid ▸ htid ▸ congrArg Block.id (Option.some.inj h2))
  have hguard : ¬(di ≥ blocks.length ∨ ti ≥ blocks.length) := by omega
  have hlenE : (blocks.eraseIdx di).length = blocks.length - 1 :=
    List.length_eraseIdx_of_lt hdi
  rw [if_neg hne, if_neg hguard, List.getElem?_eq_getElem hdi]
  simp only [reduceIte]
  rcases Nat.lt_or_ge di ti with hlt | hge
  · refine ⟨ti - 1, blocks[di], blocks[ti], hdid, htid, ?_, ?_⟩
    · rw [if_pos hlt]
      have h1 : (blocks.eraseIdx di)[ti - 1] = blocks[ti] := by
        have h2 := List.getElem_eraseIdx_of_ge blocks di (ti - 1) (by omega) (by omega)
        rw [h2]
        congr 1
        omega
      rw [insertIdx_getElem_lt_opt _ _ _ _ (by omega) (by omega) (by omega), h1]
    · rw [if_pos hlt]
      have h2 : ti - 1 + 1 = ti := by omega
      rw [h2]
      exact insertIdx_getElem_self_opt _ _ _ (by omega)
  · have hlt2 : ti < di := by omega
    refine ⟨ti, blocks[di], blocks[ti], hdid, htid, ?_, ?_⟩
    · rw [if_neg (by omega)]
      have h1 : (blocks.eraseIdx di)[ti] = blocks[ti] :=
        List.getElem_eraseIdx_of_lt blocks di ti (by omega) hlt2
      rw [insertIdx_getElem_lt_opt _ _ _ _ (by omega) (by omega) (by omega), h1]
    · rw [if_neg (by omega)]
      exact insertIdx_getElem_self_opt _ _ _ (by omega)

/-- C3: the drag-reorder computation realizes the visual before/after intent
in both drag directions.  For blocks `[A,B,C,D]`, dropping `D` with position
`before` on `B` yields `[A,D,B,C]`, and dropping `A` with position `after`
on `C` yields `[B,C,A,D]`; in general, for every block list with distinct ids
containing both the dragged and the target id (dragged ≠ target), the dragged
block ends up immediately before (resp. after) the target block in the
resulting list. -/
theorem drag_reorder_realizes_intent :
    (handleDropReorder
        [Block.text "A" "a" .paragraph, Block.text "B" "b" .paragraph,
         Block.text "C" "c" .paragraph, Block.text "D" "d" .paragraph]
        (some "D") "B" (some DropSide.before)
      = [Block.text "A" "a" .paragraph, Block.text "D" "d" .paragraph,
         Block.text "B" "b" .paragraph, Block.text "C" "c" .paragraph])
    ∧ (handleDropReorder
        [Block.text "A" "a" .paragraph, Block.text "B" "b" .paragraph,
         Block.text "C" "c" .paragraph, Block.text "D" "d" .paragraph]
        (some "A") "C" (some DropSide.after)
      = [Block.text "B" "b" .paragraph, Block.text "C" "c" .paragraph,
         Block.text "A" "a" .paragraph, Block.text "D" "d" .paragraph])
    ∧ (∀ (blocks : List Block) (draggedId targetId : String),
        (blocks.map Block.id).Nodup → draggedId ≠ targetId →
        (∃ b ∈ blocks, b.id = draggedId) → (∃ b ∈ blocks, b.id = targetId) →
        ∃ i db tb, db.id = draggedId ∧ tb.id = targetId ∧
          (handleDropReorder blocks (some draggedId) targetId (some DropSide.before))[i]?
            = some db ∧
          (handleDropReorder blocks (some draggedId) targetId (some DropSide.before))[i + 1]?
            = some tb)
    ∧ (∀ (blocks : List Block) (draggedId targetId : String),
        (blocks.map Block.id).Nodup → draggedId ≠ targetId →
        (∃ b ∈ blocks, b.id = draggedId) → (∃ b ∈ blocks, b.id = targetId) →
        ∃ i db tb, db.id = draggedId ∧ tb.id = targetId ∧
          (handleDropReorder blocks (some draggedId) targetId (some DropSide.after))[i]?
            = some tb ∧
          (handleDropReorder blocks (some draggedId) targetId (some DropSide.after))[i + 1]?
            = some db) :=
  ⟨by decide, by decide,
   fun blocks draggedId targetId _ hne hd ht =>
     handleDropReorder_before_adjacent blocks draggedId targetId hne hd ht,
   fun blocks draggedId targetId _ hne hd ht =>
     handleDropReorder_after_adjacent blocks draggedId targetId hne hd ht⟩

/-- Witness for `drag_reorder_realizes_intent`: the general adjacency parts
applied to a concrete three-block list. -/
theorem drag_reorder_realizes_intent_witness :
    (∃ i db tb, db.id = "y" ∧ tb.id = "x" ∧
      (handleDropReorder
        [Block.text "x" "1" .h1, Block.text "y" "2" .h2, Block.text "z" "3" .h3]
        (some "y") "x" (some DropSide.before))[i]? = some db ∧
      (handleDropReorder
        [Block.text "x" "1" .h1, Block.text "y" "2" .h2, Block.text "z" "3" .h3]
        (some "y") "x" (some DropSide.before))[i + 1]? = some tb)
    ∧ (∃ i db tb, db.id = "z" ∧ tb.id = "x" ∧
      (handleDropReorder
        [Block.text "x" "1" .h1, Block.text "y" "2" .h2, Block.text "z" "3" .h3]
        (some "z") "x" (some DropSide.after))[i]? = some tb ∧
      (handleDropReorder
        [Block.text "x" "1" .h1, Block.text "y" "2" .h2, Block.text "z" "3" .h3]
        (some "z") "x" (some DropSide.after))[i + 1]? = some db) :=
  ⟨drag_reorder_realizes_intent.2.2.1
      [Block.text "x" "1" .h1, Block.text "y" "2" .h2, Block.text "z" "3" .h3]
      "y" "x" (by decide) (by decide) (by decide) (by decide),
   drag_reorder_realizes_intent.2.2.2
      [Block.text "x" "1" .h1, Block.text "y" "2" .h2, Block.text "z" "3" .h3]
      "z" "x" (by decide) (by decide) (by decide) (by decide)⟩

/-! ## Optimistic mutation coordinator (src/unnamed/part_008) -/

/-- Outcome of a persistence `fetch`: a successful (`ok`) response; a non-ok
HTTP response whose body either parses to a JSON object with an `error` field
(`some e`) or fails to parse / lacks the field (`none`); or a rejected fetch
(network failure) carrying the thrown error's message. -/
inductive PersistOutcome where
  | ok
  | httpError (errorField : Option String)
  | networkError (message : String)
deriving DecidableEq, Repr

/-- The state the coordinator touches for a block mutation: the top-level
pages list, the current page's blocks list, and the inline error banner. -/
structure EditorState where
  pages : List Page
  blocks : List Block
  error : Option String
deriving DecidableEq, Repr

/-- `updatePageBlocks` (src/unnamed/part_008 lines 413-459): snapshot the
previous pages/blocks state, apply the optimistic update to both, then issue
the single-page PUT; on a non-ok response derive the message from the parsed
body's `error` field (falling back to a generic message), roll both pieces of
state back to the snapshot, surface the message, and re-raise it.  Returns
the final state together with the error re-thrown to the caller (`none` on
success).  When the page id is not present, the code returns after the
optimistic update without issuing a fetch. -/
def updatePageBlocks (s : EditorState) (pageId : String) (newBlocks : List Block)
    (outcome : PersistOutcome) : EditorState × Option String :=
  let previousPages := s.pages
  let previousBlocks := s.blocks
  let updatedPages := s.pages.map (fun p =>
    if p.id == pageId then { p with blocks := newBlocks } else p)
  let optimistic : EditorState := { s with pages := updatedPages, blocks := newBlocks }
  match updatedPages.find? (fun p => p.id == pageId) with
  | none => (optimistic, none)
  | some _ =>
    match outcome with
    | .ok => (optimistic, none)
    | .httpError errorField =>
      let errorMessage := errorField.getD "Failed to persist page changes"
      ({ optimistic with
          pages := previousPages
          blocks := previousBlocks
          error := some errorMessage }, some errorMessage)
    | .networkError message =>
      ({ optimistic with
          pages := previousPages
          blocks := previousBlocks
          error := some message }, some message)

/-- Mapping a pages list with the blocks replacement preserves every page id. -/
lemma updatedPages_find_isSome (pages : List Page) (pageId : String)
    (newBlocks : List Block) (h : pageId ∈ pages.map Page.id) :
    ((pages.map (fun p => if p.id == pageId then { p with blocks := newBlocks } else p)).find?
      (fun p => p.id == pageId)).isSome := by
  rw [List.find?_isSome]
  obtain ⟨p, hp, hpid⟩ := List.mem_map.mp h
  refine ⟨if p.id == pageId then { p with blocks := newBlocks } else p,
    List.mem_map_of_mem _ hp, ?_⟩
  rw [if_pos (by simp [hpid])]
  simp [hpid]

/-- C1: for every block mutation dispatched through `updatePageBlocks`, if the
persistence call fails (non-ok response with or without a parseable body, or
network failure), the final pages list and blocks list are structurally equal
to the pre-mutation state, and the error is re-raised to the caller. -/
theorem updatePageBlocks_rollback_exact (s : EditorState) (pageId : String)
    (newBlocks : List Block) (outcome : PersistOutcome)
    (hmem : pageId ∈ s.pages.map Page.id) (hfail : outcome ≠ .ok) :
    ((updatePageBlocks s pageId newBlocks outcome).1.pages = s.pages
      ∧ (updatePageBlocks s pageId newBlocks outcome).1.blocks = s.blocks)
    ∧ (updatePageBlocks s pageId newBlocks outcome).2.isSome := by
  have hfind := updatedPages_find_isSome s.pages pageId newBlocks hmem
  obtain ⟨p, hp⟩ := Option.isSome_iff_exists.mp hfind
  simp only [updatePageBlocks]
  rw [hp]
  cases outcome with
  | ok => exact absurd rfl hfail
  | httpError errorField => exact ⟨⟨rfl, rfl⟩, rfl⟩
  | networkError message => exact ⟨⟨rfl, rfl⟩, rfl⟩

/-- Witness for `updatePageBlocks_rollback_exact` at a concrete state and a
non-ok response with a malformed body. -/
theorem updatePageBlocks_rollback_exact_witness :
    ((updatePageBlocks
        ⟨[⟨"p1", "Home", [Block.text "b1" "hi" .paragraph]⟩],
          [Block.text "b1" "hi" .paragraph], none⟩
        "p1" [] (.httpError none)).1.pages
        = [⟨"p1", "Home", [Block.text "b1" "hi" .paragraph]⟩]
      ∧ (updatePageBlocks
        ⟨[⟨"p1", "Home", [Block.text "b1" "hi" .paragraph]⟩],
          [Block.text "b1" "hi" .paragraph], none⟩
        "p1" [] (.httpError none)).1.blocks
        = [Block.text "b1" "hi" .paragraph])
    ∧ (updatePageBlocks
        ⟨[⟨"p1", "Home", [Block.text "b1" "hi" .paragraph]⟩],
          [Block.text "b1" "hi" .paragraph], none⟩
        "p1" [] (.httpError none)).2.isSome :=
  updatePageBlocks_rollback_exact
    ⟨[⟨"p1", "Home", [Block.text "b1" "hi" .paragraph]⟩],
      [Block.text "b1" "hi" .paragraph], none⟩
    "p1" [] (.httpError none) (by decide) (by decide)

/-- Result of `handleCreatePage`: the pages list, the active-page selection
and the alert shown (if any). -/
structure CreatePageResult where
  pages : List Page
  selectedPageId : Option String
  alertMessage : Option String
deriving DecidableEq, Repr

/-- `handleCreatePage` (src/unnamed/part_008 lines 375-409): prompt for a
title (a cancelled or empty-after-trim prompt aborts), build the new page
with a client-generated id, optimistically append it and select it, then
POST.  On a non-ok response the handler filters the new page back out, sets
the selection to `null`, and throws; the catch shows the thrown message as an
alert.  On a rejected fetch (network failure) only the catch runs: the alert
is shown but neither the page list nor the selection is touched. -/
def handleCreatePage (pages : List Page) (selectedPageId : Option String)
    (promptTitle : Option String) (newPageId : String)
    (outcome : PersistOutcome) : CreatePageResult :=
  match promptTitle with
  | none => ⟨pages, selectedPageId, none⟩
  | some title =>
    if title = "" ∨ (jsTrim title).length = 0 then ⟨pages, selectedPageId, none⟩
    else
      let newPage : Page := ⟨newPageId, jsTrim title, []⟩
      let optimisticPages := pages ++ [newPage]
      match outcome with
      | .ok => ⟨optimisticPages, some newPageId, none⟩
      | .httpError _ =>
        ⟨optimisticPages.filter (fun p => p.id != newPageId), none,
          some "Failed to create page"⟩
      | .networkError message => ⟨optimisticPages, some newPageId, some message⟩

/-- C8 (counterexample): a failed page creation does not restore the
active-page selection to its pre-mutation value.  With page `p1` selected,
creating page `p2` and receiving a non-ok response leaves the pages list
restored but the selection cleared to `null` instead of `p1`; and on a
network failure neither optimistic effect is undone at all. -/
theorem createPage_rollback_counterexample :
    ((handleCreatePage [⟨"p1", "One", []⟩] (some "p1") (some "Two") "p2"
        (.httpError none)).pages = [⟨"p1", "One", []⟩]
      ∧ (handleCreatePage [⟨"p1", "One", []⟩] (some "p1") (some "Two") "p2"
        (.httpError none)).selectedPageId ≠ some "p1")
    ∧ ((handleCreatePage [⟨"p1", "One", []⟩] (some "p1") (some "Two") "p2"
        (.networkError "fetch failed")).pages ≠ [⟨"p1", "One", []⟩]
      ∧ (handleCreatePage [⟨"p1", "One", []⟩] (some "p1") (some "Two") "p2"
        (.networkError "fetch failed")).selectedPageId = some "p2") := by
  decide

/-- C8 (amended): on a non-ok response the page-list insertion is undone (the
pages list returns to its pre-mutation value when the new id was fresh) but
the active-page selection is cleared to `null` rather than restored to its
pre-mutation value; on a network failure (rejected fetch) no rollback occurs
at all — the optimistic page and selection remain and only an alert is
shown. -/
theorem createPage_failure_behavior (pages : List Page)
    (selectedPageId : Option String) (title newPageId : String)
    (errorField : Option String) (message : String)
    (htitle : jsTrim title ≠ "")
    (hfresh : ∀ p ∈ pages, p.id ≠ newPageId) :
    (handleCreatePage pages selectedPageId (some title) newPageId
        (.httpError errorField)
      = ⟨pages, none, some "Failed to create page"⟩)
    ∧ (handleCreatePage pages selectedPageId (some title) newPageId
        (.networkError message)
      = ⟨pages ++ [⟨newPageId, jsTrim title, []⟩], some newPageId, some message⟩) := by
  have hguard : ¬(title = "" ∨ (jsTrim title).length = 0) := by
    rintro (h | h)
    · exact htitle (by rw [h]; rfl)
    · exact htitle (by
        cases hs : jsTrim title with
        | mk data => cases data with
          | nil => rfl
          | cons c cs => rw [hs] at h; simp [String.length] at h)
  have hfilter : (pages ++ [(⟨newPageId, jsTrim title, []⟩ : Page)]).filter
      (fun p => p.id != newPageId) = pages := by
    rw [List.filter_append]
    have h1 : pages.filter (fun p => p.id != newPageId) = pages :=
      List.filter_eq_self.mpr (fun p hp => by simpa using hfresh p hp)
    have h2 : [(⟨newPageId, jsTrim title, []⟩ : Page)].filter
        (fun p => p.id != newPageId) = [] := by simp
    rw [h1, h2, List.append_nil]
  constructor
  · simp only [handleCreatePage, if_neg hguard]
    rw [hfilter]
  · simp only [handleCreatePage, if_neg hguard]

/-- Witness for `createPage_failure_behavior` at a concrete state. -/
theorem createPage_failure_behavior_witness :
    (handleCreatePage [⟨"p1", "One", []⟩] (some "p1") (some " Two ") "p2"
        (.httpError (some "boom"))
      = ⟨[⟨"p1", "One", []⟩], none, some "Failed to create page"⟩)
    ∧ (handleCreatePage [⟨"p1", "One", []⟩] (some "p1") (some " Two ") "p2"
        (.networkError "fetch failed")
      = ⟨[⟨"p1", "One", []⟩, ⟨"p2", "Two", []⟩], some "p2", some "fetch failed"⟩) := by
  have h := createPage_failure_behavior [⟨"p1", "One", []⟩] (some "p1") " Two " "p2"
    (some "boom") "fetch failed" (by decide) (by decide)
  exact ⟨h.1, by rw [h.2]; decide⟩

/-- `handleRenamePage` (src/unnamed/part_008 lines 763-803): validate the
trimmed title is non-empty, find the page (a missing page logs and returns —
no fetch), optimistically update the pages state, then PUT; on failure
restore the snapshot and re-raise.  Returns the resulting pages state,
whether a persistence call was issued, and the error raised to the caller. -/
def handleRenamePage (pages : List Page) (pageId : String) (newTitle : String)
    (outcome : PersistOutcome) : List Page × Bool × Option String :=
  let trimmedTitle := jsTrim newTitle
  if trimmedTitle = "" then (pages, false, none)
  else
    match pages.find? (fun p => p.id == pageId) with
    | none => (pages, false, none)
    | some page =>
      let updatedPage := { page with title := trimmedTitle }
      let optimistic := pages.map (fun p => if p.id == pageId then updatedPage else p)
      match outcome with
      | .ok => (optimistic, true, none)
      | .httpError _ => (pages, true, some "Failed to rename page")
      | .networkError message => (pages, true, some message)

/-- `handleTitleSave` (sidebar, src/unnamed/part_004 lines 149-178): an
empty-after-trim draft reverts silently; a draft equal to the current title
exits edit mode without an API call; otherwise it delegates to the rename
mutation.  Same return convention as `handleRenamePage`. -/
def handleTitleSave (pages : List Page) (pageId : String) (editingTitle : String)
    (outcome : PersistOutcome) : List Page × Bool × Option String :=
  let trimmedTitle := jsTrim editingTitle
  if trimmedTitle = "" then (pages, false, none)
  else
    match pages.find? (fun p => p.id == pageId) with
    | some currentPage =>
      if trimmedTitle = currentPage.title then (pages, false, none)
      else handleRenamePage pages pageId trimmedTitle outcome
    | none => handleRenamePage pages pageId trimmedTitle outcome

/-- `handlePageTitleSave` (main area, src/unnamed/part_008 lines 829-857):
empty-after-trim reverts silently; the rename mutation runs only when the
trimmed draft differs from the selected page's title and a page id is
selected (JS truthiness of the id). -/
def handlePageTitleSave (pages : List Page) (selectedPageId : Option String)
    (editingPageTitle : String) (outcome : PersistOutcome) :
    List Page × Bool × Option String :=
  let trimmedTitle := jsTrim editingPageTitle
  if trimmedTitle = "" then (pages, false, none)
  else
    let selectedPage := selectedPageId.bind (fun sid => pages.find? (fun p => p.id == sid))
    let titleDiffers : Bool :=
      match selectedPage with
      | some p => trimmedTitle != p.title
      | none => true
    match selectedPageId with
    | some sid =>
      if titleDiffers && sid != "" then handleRenamePage pages sid trimmedTitle outcome
      else (pages, false, none)
    | none => (pages, false, none)

/-- C9: page rename is a conditional no-op, in both title-save handlers.
Saving a title whose trimmed value equals the page's current title issues no
persistence call and leaves the pages state unchanged; a title empty after
trimming silently discards the edit (no call, no error, state unchanged);
and a persistence call is issued only for a trimmed, non-empty, different
title. -/
theorem rename_noop_guard (pages : List Page) (pageId : String) (p : Page)
    (editingTitle : String) (outcome : PersistOutcome)
    (hfind : pages.find? (fun q => q.id == pageId) = some p) :
    (jsTrim editingTitle = p.title →
      handleTitleSave pages pageId editingTitle outcome = (pages, false, none)
      ∧ handlePageTitleSave pages (some pageId) editingTitle outcome
        = (pages, false, none))
    ∧ (jsTrim editingTitle = "" →
      handleTitleSave pages pageId editingTitle outcome = (pages, false, none)
      ∧ handlePageTitleSave pages (some pageId) editingTitle outcome
        = (pages, false, none))
    ∧ ((handleTitleSave pages pageId editingTitle outcome).2.1 = true →
      jsTrim editingTitle ≠ "" ∧ jsTrim editingTitle ≠ p.title)
    ∧ ((handlePageTitleSave pages (some pageId) editingTitle outcome).2.1 = true →
      jsTrim editingTitle ≠ "" ∧ jsTrim editingTitle ≠ p.title) := by
  by_cases h0 : jsTrim editingTitle = ""
  · have e1 : handleTitleSave pages pageId editingTitle outcome = (pages, false, none) := by
      simp [handleTitleSave, h0]
    have e2 : handlePageTitleSave pages (some pageId) editingTitle outcome
        = (pages, false, none) := by
      simp [handlePageTitleSave, h0]
    refine ⟨fun _ => ⟨e1, e2⟩, fun _ => ⟨e1, e2⟩, ?_, ?_⟩
    · rw [e1]; intro hiss; exact absurd hiss (by simp)
    · rw [e2]; intro hiss; exact absurd hiss (by simp)
  · by_cases h1 : jsTrim editingTitle = p.title
    · have e1 : handleTitleSave pages pageId editingTitle outcome = (pages, false, none) := by
        simp [handleTitleSave, h0, hfind, h1]
      have e2 : handlePageTitleSave pages (some pageId) editingTitle outcome
          = (pages, false, none) := by
        simp [handlePageTitleSave, h0, hfind, h1]
      refine ⟨fun _ => ⟨e1, e2⟩, fun h0' => absurd h0' h0, ?_, ?_⟩
      · rw [e1]; intro hiss; exact absurd hiss (by simp)
      · rw [e2]; intro hiss; exact absurd hiss (by simp)
    · exact ⟨fun h1' => absurd h1' h1, fun h0' => absurd h0' h0,
        fun _ => ⟨h0, h1⟩, fun _ => ⟨h0, h1⟩⟩

/-- Witness for `rename_noop_guard`: saving the unchanged title `" Home "`
(trimming to the current title) is a no-op in both handlers. -/
theorem rename_noop_guard_witness :
    handleTitleSave [⟨"p1", "Home", []⟩] "p1" " Home " .ok
      = ([⟨"p1", "Home", []⟩], false, none)
    ∧ handlePageTitleSave [⟨"p1", "Home", []⟩] (some "p1") " Home " .ok
      = ([⟨"p1", "Home", []⟩], false, none) :=
  (rename_noop_guard [⟨"p1", "Home", []⟩] "p1" ⟨"p1", "Home", []⟩ " Home " .ok
    (by decide)).1 (by decide)

/-! ## Server route handlers for pages (src/app/api/pages/route.ts,
src/unnamed/part_006) -/

/-- A create-page request body over the domain relevant to the claims: `id`
and `title` are strings and `blocks` is an array (the route's
`typeof`/`Array.isArray` guards hold identically on this domain; bodies
failing them are rejected and carry no client-generated id to preserve). -/
structure PageBody where
  id : String
  title : String
  blocks : List Block
deriving DecidableEq, Repr

/-- Response of `POST /api/pages`. -/
inductive PostResponse where
  | badRequest (error : String)
  | conflict (error : String)
  | created (page : Page)
deriving DecidableEq, Repr

/-- `POST /api/pages` (src/app/api/pages/route.ts lines 189-259): reject an
id or title that is empty after trimming (for string fields, the
`!body.id || typeof body.id !== 'string'` guards reduce to the trim check),
reject a duplicate id with 409, otherwise store and return a page built from
the body with `id` taken verbatim and `title` trimmed.  Returns the stored
pages and the response. -/
def postPage (pages : List Page) (body : PageBody) : List Page × PostResponse :=
  if (jsTrim body.id).length = 0 then
    (pages, .badRequest "ID must be a non-empty string (client-generated UUID)")
  else if (jsTrim body.title).length = 0 then
    (pages, .badRequest "Title must be a non-empty string")
  else if pages.any (fun p => p.id == body.id) then
    (pages, .conflict "Page with this ID already exists")
  else
    let newPage : Page := ⟨body.id, jsTrim body.title, body.blocks⟩
    (pages ++ [newPage], .created newPage)

/-- Response of `PUT /api/pages/[id]` (400 messages elided; they are not
claim-relevant). -/
inductive PutPageResponse where
  | badRequest
  | notFound
  | okPage (page : Page)
deriving DecidableEq, Repr

/-- The per-block checks of `PUT /api/pages/[id]` on an already-structured
block: the id must be truthy (non-empty); `type`, `content` and `styles` are
well-shaped by construction; image dimensions must not be `<= 0` (this
endpoint has no finiteness check — see `putPageBlockCheck`). -/
def putPageBlockOk : Block → Bool
  | .text id _ _ => id != ""
  | .image id _ width height =>
    id != "" && !(decide (width ≤ 0)) && !(decide (height ≤ 0))

/-- `PUT /api/pages/[id]` (src/unnamed/part_006 lines 14-162) over structured
`Page` bodies (string id/title, array blocks): reject an empty-after-trim id,
an id mismatching the URL, or an invalid block; 404 when the id is not among
the stored pages; otherwise replace that page with the body verbatim and
return the body.  Returns the stored pages and the response. -/
def putPage (pages : List Page) (urlId : String) (body : Page) :
    List Page × PutPageResponse :=
  if (jsTrim body.id).length = 0 then (pages, .badRequest)
  else if body.id != urlId then (pages, .badRequest)
  else if !(body.blocks.all putPageBlockOk) then (pages, .badRequest)
  else
    let pageIndex := pages.findIdx (fun p => p.id == urlId)
    if pageIndex ≥ pages.length then (pages, .notFound)
    else (pages.set pageIndex body, .okPage body)

/-- C2: client-generated ids are never reassigned.  A create-page request
the backend accepts (non-empty trimmed string id, non-empty trimmed title,
blocks array, no page with that id) stores and returns a page whose id is
exactly the submitted id; and a successful single-page update stores the
submitted page object, whose id equals the submitted id. -/
theorem clientId_preserved_on_create_and_update :
    (∀ (pages : List Page) (body : PageBody),
      jsTrim body.id ≠ "" → jsTrim body.title ≠ "" →
      (∀ p ∈ pages, p.id ≠ body.id) →
      (postPage pages body).1 = pages ++ [⟨body.id, jsTrim body.title, body.blocks⟩]
      ∧ (postPage pages body).2 = .created ⟨body.id, jsTrim body.title, body.blocks⟩)
    ∧ (∀ (pages : List Page) (urlId : String) (body result : Page),
      (putPage pages urlId body).2 = .okPage result →
      result.id = body.id ∧ body ∈ (putPage pages urlId body).1) := by
  constructor
  · intro pages body hid htitle hdup
    have h1 : ¬((jsTrim body.id).length = 0) := by
      intro h
      exact hid (String.ext (List.length_eq_zero.mp h))
    have h2 : ¬((jsTrim body.title).length = 0) := by
      intro h
      exact htitle (String.ext (List.length_eq_zero.mp h))
    have h3 : ¬(pages.any (fun p => p.id == body.id) = true) := by
      rw [List.any_eq_true]
      rintro ⟨p, hp, hpid⟩
      exact hdup p hp (by simpa using hpid)
    simp only [postPage, if_neg h1, if_neg h2, if_neg h3]
    exact ⟨trivial, trivial⟩
  · intro pages urlId body result h
    simp only [putPage] at h
    split_ifs at h with g1 g2 g3 g4
    all_goals simp at h
    refine ⟨by rw [h], ?_⟩
    simp only [putPage]
    rw [if_neg g1, if_neg g2, if_neg g3, if_neg g4]
    have hlt : pages.findIdx (fun p => p.id == urlId) < pages.length := by omega
    have hm := List.mem_set pages (pages.findIdx (fun p => p.id == urlId))
      (by simpa using hlt) body
    simpa using hm

/-- Witness for `clientId_preserved_on_create_and_update` at concrete create
and update requests. -/
theorem clientId_preserved_witness :
    ((postPage [] ⟨"id-1", "My Page", []⟩).1 = [⟨"id-1", "My Page", []⟩]
      ∧ (postPage [] ⟨"id-1", "My Page", []⟩).2 = .created ⟨"id-1", "My Page", []⟩)
    ∧ ((⟨"id-1", "Renamed", []⟩ : Page).id = (⟨"id-1", "Renamed", []⟩ : Page).id
      ∧ (⟨"id-1", "Renamed", []⟩ : Page)
          ∈ (putPage [⟨"id-1", "My Page", []⟩] "id-1" ⟨"id-1", "Renamed", []⟩).1) :=
  ⟨by
    have h := clientId_preserved_on_create_and_update.1 [] ⟨"id-1", "My Page", []⟩
      (by decide) (by decide) (by simp)
    exact ⟨by rw [h.1]; decide, by rw [h.2]; decide⟩,
   clientId_preserved_on_create_and_update.2 [⟨"id-1", "My Page", []⟩] "id-1"
      ⟨"id-1", "Renamed", []⟩ ⟨"id-1", "Renamed", []⟩ (by decide)⟩

/-- C10: title normalization differs between create and update.  An accepted
create stores `jsTrim` of the submitted title and rejects an empty-after-trim
title; the single-page update endpoint stores the submitted page verbatim
(title untrimmed) and accepts any string title, including one that is empty
after trimming — the data model's non-empty-title constraint is enforced only
at page creation. -/
theorem title_normalization_create_vs_update :
    (∀ (pages : List Page) (body : PageBody),
      jsTrim body.id ≠ "" → jsTrim body.title ≠ "" →
      (∀ p ∈ pages, p.id ≠ body.id) →
      ∃ pg, (postPage pages body).2 = .created pg ∧ pg.title = jsTrim body.title)
    ∧ (∀ (pages : List Page) (body : PageBody),
      jsTrim body.id ≠ "" → jsTrim body.title = "" →
      (postPage pages body).1 = pages
      ∧ (postPage pages body).2 = .badRequest "Title must be a non-empty string")
    ∧ (∀ (pages : List Page) (urlId : String) (body : Page),
      jsTrim body.id ≠ "" → body.id = urlId →
      body.blocks.all putPageBlockOk = true →
      pages.findIdx (fun p => p.id == urlId) < pages.length →
      (putPage pages urlId body).2 = .okPage body
      ∧ (putPage pages urlId body).1
          = pages.set (pages.findIdx (fun p => p.id == urlId)) body) := by
  refine ⟨?_, ?_, ?_⟩
  · intro pages body hid htitle hdup
    have h1 : ¬((jsTrim body.id).length = 0) := by
      intro h
      exact hid (String.ext (List.length_eq_zero.mp h))
    have h2 : ¬((jsTrim body.title).length = 0) := by
      intro h
      exact htitle (String.ext (List.length_eq_zero.mp h))
    have h3 : ¬(pages.any (fun p => p.id == body.id) = true) := by
      rw [List.any_eq_true]
      rintro ⟨p, hp, hpid⟩
      exact hdup p hp (by simpa using hpid)
    exact ⟨⟨body.id, jsTrim body.title, body.blocks⟩,
      by simp only [postPage, if_neg h1, if_neg h2, if_neg h3], rfl⟩
  · intro pages body hid htitle
    have h1 : ¬((jsTrim body.id).length = 0) := by
      intro h
      exact hid (String.ext (List.length_eq_zero.mp h))
    have h2 : (jsTrim body.title).length = 0 := by
      rw [htitle]
      rfl
    simp only [postPage, if_neg h1, if_pos h2]
    exact ⟨trivial, trivial⟩
  · intro pages urlId body hid heq hblocks hidx
    have h1 : ¬((jsTrim body.id).length = 0) := by
      intro h
      exact hid (String.ext (List.length_eq_zero.mp h))
    have h2 : ¬((body.id != urlId) = true) := by simp [heq]
    have h3 : ¬((!body.blocks.all putPageBlockOk) = true) := by simp [hblocks]
    have h4 : ¬(pages.findIdx (fun p => p.id == urlId) ≥ pages.length) := by omega
    simp only [putPage, if_neg h1, if_neg h2, if_neg h3, if_neg h4]
    exact ⟨trivial, trivial⟩

/-- Witness for `title_normalization_create_vs_update`: the create path trims
`"  Hi  "` to `"Hi"` and rejects `"   "`, while the update path stores a page
whose title is `"   "` (empty after trim) verbatim. -/
theorem title_normalization_witness :
    (∃ pg, (postPage [] ⟨"id-1", "  Hi  ", []⟩).2 = .created pg ∧ pg.title = "Hi")
    ∧ ((postPage [] ⟨"id-1", "   ", []⟩).2
        = .badRequest "Title must be a non-empty string")
    ∧ ((putPage [⟨"id-1", "Old", []⟩] "id-1" ⟨"id-1", "   ", []⟩).2
        = .okPage ⟨"id-1", "   ", []⟩
      ∧ (putPage [⟨"id-1", "Old", []⟩] "id-1" ⟨"id-1", "   ", []⟩).1
        = [⟨"id-1", "   ", []⟩]) := by
  refine ⟨?_, ?_, ?_⟩
  · obtain ⟨pg, hpg, ht⟩ := title_normalization_create_vs_update.1 []
      ⟨"id-1", "  Hi  ", []⟩ (by decide) (by decide) (by simp)
    exact ⟨pg, hpg, by rw [ht]; decide⟩
  · exact (title_normalization_create_vs_update.2.1 [] ⟨"id-1", "   ", []⟩
      (by decide) (by decide)).2
  · have h := title_normalization_create_vs_update.2.2 [⟨"id-1", "Old", []⟩]
      "id-1" ⟨"id-1", "   ", []⟩ (by decide) (by decide) (by decide) (by decide)
    exact ⟨h.1, by rw [h.2]; decide⟩

/-- `GET /api/pages` (src/app/api/pages/route.ts lines 16-46): when the pages
collection is empty and the legacy blocks collection is non-empty, synthesize
one page titled `"Imported Page"` (id from `Date.now().toString()`, modelled
as the parameter `now`) wrapping all legacy blocks, persist it and return it;
otherwise return the stored pages untouched.  Returns the stored pages after
the call and the response body. -/
def getPagesHandler (pages : List Page) (legacyBlocks : List Block)
    (now : String) : List Page × List Page :=
  if pages.length = 0 then
    if legacyBlocks.length > 0 then
      let importedPage : Page := ⟨now, "Imported Page", legacyBlocks⟩
      ([importedPage], [importedPage])
    else (pages, pages)
  else (pages, pages)

/-- C7: the list-pages migration path is idempotent.  With an empty pages
collection and a non-empty legacy block collection, listing pages stores and
returns exactly one page titled `"Imported Page"` containing all legacy
blocks; running the path again over the stored result (same legacy blocks)
stores nothing new and returns the same single page. -/
theorem listPages_migration_idempotent (legacyBlocks : List Block)
    (now now2 : String) (hne : legacyBlocks ≠ []) :
    (getPagesHandler [] legacyBlocks now
      = ([⟨now, "Imported Page", legacyBlocks⟩], [⟨now, "Imported Page", legacyBlocks⟩]))
    ∧ (getPagesHandler [⟨now, "Imported Page", legacyBlocks⟩] legacyBlocks now2
      = ([⟨now, "Imported Page", legacyBlocks⟩], [⟨now, "Imported Page", legacyBlocks⟩]))
    ∧ (getPagesHandler [] legacyBlocks now).1.length = 1 := by
  have hpos : legacyBlocks.length > 0 := List.length_pos.mpr hne
  have h1 : getPagesHandler [] legacyBlocks now
      = ([⟨now, "Imported Page", legacyBlocks⟩], [⟨now, "Imported Page", legacyBlocks⟩]) := by
    simp only [getPagesHandler, List.length_nil, if_pos rfl, if_pos hpos, if_true]
  refine ⟨h1, ?_, by rw [h1]; rfl⟩
  simp only [getPagesHandler]
  rw [if_neg (by simp)]

/-- Witness for `listPages_migration_idempotent` with one legacy block. -/
theorem listPages_migration_idempotent_witness :
    (getPagesHandler [] [Block.text "b1" "legacy" .paragraph] "100"
      = ([⟨"100", "Imported Page", [Block.text "b1" "legacy" .paragraph]⟩],
         [⟨"100", "Imported Page", [Block.text "b1" "legacy" .paragraph]⟩]))
    ∧ (getPagesHandler [⟨"100", "Imported Page", [Block.text "b1" "legacy" .paragraph]⟩]
        [Block.text "b1" "legacy" .paragraph] "200"
      = ([⟨"100", "Imported Page", [Block.text "b1" "legacy" .paragraph]⟩],
         [⟨"100", "Imported Page", [Block.text "b1" "legacy" .paragraph]⟩]))
    ∧ (getPagesHandler [] [Block.text "b1" "legacy" .paragraph] "100").1.length = 1 :=
  listPages_migration_idempotent [Block.text "b1" "legacy" .paragraph] "100" "200"
    (by decide)

/-! ## Bulk block reorder (PUT /api/blocks) -/

/-- Response of the bulk reorder `PUT /api/blocks` (400 messages elided). -/
inductive ReorderResponse where
  | badRequest
  | okBlocks (blocks : List Block)
deriving DecidableEq, Repr

/-- `PUT /api/blocks` bulk reorder (src/app/api/pages/route.ts lines 437-534)
over bodies that are arrays of strings (the route's `Array.isArray` and
`typeof` guards hold identically there): reject an empty id, a length
mismatch with storage, a duplicate id (the frequency-map check), or an id not
among the stored ids; only then rebuild the array by looking each submitted
id up among the stored blocks (the `Map` lookup, which agrees with `find?`
when stored ids are distinct) and persist it.  Returns the stored blocks
after the call and the response. -/
def reorderBlocksPut (existingBlocks : List Block) (body : List String) :
    List Block × ReorderResponse :=
  if !(body.all (fun id => decide (0 < id.length))) then (existingBlocks, .badRequest)
  else if body.length != existingBlocks.length then (existingBlocks, .badRequest)
  else if body.any (fun id => decide (1 < body.count id)) then (existingBlocks, .badRequest)
  else if !(body.all (fun id => (existingBlocks.map Block.id).contains id)) then
    (existingBlocks, .badRequest)
  else
    let reorderedBlocks := body.filterMap (fun id => existingBlocks.find? (fun b => b.id == id))
    (reorderedBlocks, .okBlocks reorderedBlocks)

/-- With distinct stored ids, looking a stored block's id up again finds that
very block. -/
lemma find?_id_eq_self_of_nodup (existing : List Block)
    (hnd : (existing.map Block.id).Nodup) (b : Block) (hb : b ∈ existing) :
    existing.find? (fun x => x.id == b.id) = some b := by
  induction existing with
  | nil => cases hb
  | cons x rest ih =>
    rw [List.map_cons, List.nodup_cons] at hnd
    rcases List.mem_cons.mp hb with rfl | hbr
    · rw [List.find?_cons_of_pos _ (by simp)]
    · by_cases hx : x.id == b.id
      · exfalso
        apply hnd.1
        rw [show x.id = b.id from by simpa using hx]
        exact List.mem_map_of_mem Block.id hbr
      · rw [List.find?_cons_of_neg _ (by simpa using hx)]
        exact ih hnd.2 hbr

/-- The ids of the looked-up blocks are exactly the submitted ids. -/
lemma filterMap_map_id_of_exists (existing : List Block) (body : List String)
    (hall : ∀ i ∈ body, ∃ b ∈ existing, b.id = i) :
    (body.filterMap (fun i => existing.find? (fun b => b.id == i))).map Block.id = body := by
  induction body with
  | nil => rfl
  | cons i rest ih =>
    obtain ⟨b, hb, hbid⟩ := hall i (List.mem_cons_self i rest)
    have hfind : (existing.find? (fun x => x.id == i)).isSome := by
      rw [List.find?_isSome]
      exact ⟨b, hb, by simp [hbid]⟩
    obtain ⟨c, hc⟩ := Option.isSome_iff_exists.mp hfind
    have hcid : c.id = i := by
      have := List.find?_some hc
      simpa using this
    rw [List.filterMap_cons, hc, List.map_cons, hcid,
      ih (fun j hj => hall j (List.mem_cons_of_mem i hj))]

/-- A `filterMap` that maps every element of the list to itself is the
identity. -/
lemma filterMap_congr_self (l : List Block) (f : Block → Option Block)
    (h : ∀ a ∈ l, f a = some a) : l.filterMap f = l := by
  induction l with
  | nil => rfl
  | cons a rest ih =>
    rw [List.filterMap_cons, h a (List.mem_cons_self a rest),
      ih (fun b hb => h b (List.mem_cons_of_mem a hb))]

/-- C6: the bulk block-reorder accepts a submitted id list iff it is an exact
permutation of the stored blocks' ids (same length, no duplicates, no unknown
ids); any other list is rejected with a 400 before any write, leaving storage
at its pre-call value; and an accepted list stores exactly the existing
blocks (content unchanged) rearranged into the submitted id order. -/
theorem reorder_permutation_check (existing : List Block) (body : List String)
    (hnd : (existing.map Block.id).Nodup) (hids : ∀ b ∈ existing, b.id ≠ "") :
    ((∃ bs, (reorderBlocksPut existing body).2 = .okBlocks bs)
      ↔ body.Perm (existing.map Block.id))
    ∧ (¬ body.Perm (existing.map Block.id) →
        reorderBlocksPut existing body = (existing, .badRequest))
    ∧ (body.Perm (existing.map Block.id) →
        (reorderBlocksPut existing body).1.map Block.id = body
        ∧ (reorderBlocksPut existing body).1.Perm existing) := by
  classical
  have hex : ∀ i ∈ existing.map Block.id, ∃ b ∈ existing, b.id = i := by
    intro i hm
    obtain ⟨b, hb, hbid⟩ := List.mem_map.mp hm
    exact ⟨b, hb, hbid⟩
  by_cases g1 : body.all (fun id => decide (0 < id.length)) = true
  case neg =>
    have hres : reorderBlocksPut existing body = (existing, .badRequest) := by
      simp only [reorderBlocksPut]
      rw [if_pos (by simp [g1])]
    have hnP : ¬ body.Perm (existing.map Block.id) := by
      intro hP
      apply g1
      rw [List.all_eq_true]
      intro i hi
      obtain ⟨b, hb, hbid⟩ := hex i (hP.subset hi)
      have hne2 : i ≠ "" := by rw [← hbid]; exact hids b hb
      have hdata : i.data ≠ [] := fun h => hne2 (String.ext h)
      exact decide_eq_true (List.length_pos.mpr hdata)
    exact ⟨⟨fun ⟨bs, hbs⟩ => absurd (by rw [hres] at hbs; exact hbs) (by simp),
      fun hP => absurd hP hnP⟩, fun _ => hres, fun hP => absurd hP hnP⟩
  case pos =>
  by_cases g2 : (body.length != existing.length) = true
  case pos =>
    have hres : reorderBlocksPut existing body = (existing, .badRequest) := by
      simp only [reorderBlocksPut]
      rw [if_neg (by simp [g1]), if_pos g2]
    have hnP : ¬ body.Perm (existing.map Block.id) := by
      intro hP
      have hleq := hP.length_eq
      rw [List.length_map] at hleq
      exact (bne_iff_ne.mp g2) hleq
    exact ⟨⟨fun ⟨bs, hbs⟩ => absurd (by rw [hres] at hbs; exact hbs) (by simp),
      fun hP => absurd hP hnP⟩, fun _ => hres, fun hP => absurd hP hnP⟩
  case neg =>
  by_cases g3 : body.any (fun id => decide (1 < body.count id)) = true
  case pos =>
    have hres : reorderBlocksPut existing body = (existing, .badRequest) := by
      simp only [reorderBlocksPut]
      rw [if_neg (by simp [g1]), if_neg g2, if_pos g3]
    have hnP : ¬ body.Perm (existing.map Block.id) := by
      intro hP
      have hbnd : body.Nodup := hP.nodup_iff.mpr hnd
      rw [List.any_eq_true] at g3
      obtain ⟨i, hi, hcount⟩ := g3
      have hle := List.nodup_iff_count_le_one.mp hbnd i
      simp only [decide_eq_true_eq] at hcount
      omega
    exact ⟨⟨fun ⟨bs, hbs⟩ => absurd (by rw [hres] at hbs; exact hbs) (by simp),
      fun hP => absurd hP hnP⟩, fun _ => hres, fun hP => absurd hP hnP⟩
  case neg =>
  by_cases g4 : body.all (fun id => (existing.map Block.id).contains id) = true
  case neg =>
    have hres : reorderBlocksPut existing body = (existing, .badRequest) := by
      simp only [reorderBlocksPut]
      rw [if_neg (by simp [g1]), if_neg g2, if_neg g3,
        if_pos (by rw [Bool.not_eq_true] at g4; rw [g4]; rfl)]
    have hnP : ¬ body.Perm (existing.map Block.id) := by
      intro hP
      apply g4
      rw [List.all_eq_true]
      intro i hi
      exact List.elem_iff.mpr (hP.subset hi)
    exact ⟨⟨fun ⟨bs, hbs⟩ => absurd (by rw [hres] at hbs; exact hbs) (by simp),
      fun hP => absurd hP hnP⟩, fun _ => hres, fun hP => absurd hP hnP⟩
  case pos =>
    have hres : reorderBlocksPut existing body
        = (body.filterMap (fun id => existing.find? (fun b => b.id == id)),
           .okBlocks (body.filterMap (fun id => existing.find? (fun b => b.id == id)))) := by
      simp only [reorderBlocksPut]
      rw [if_neg (by simp [g1]), if_neg g2, if_neg g3, if_neg (by rw [g4]; simp)]
    have hbnd : body.Nodup := by
      rw [List.nodup_iff_count_le_one]
      intro a
      by_cases ha : a ∈ body
      · by_contra hgt
        have : body.any (fun id => decide (1 < body.count id)) = true := by
          rw [List.any_eq_true]
          exact ⟨a, ha, by simp; omega⟩
        exact g3 this
      · rw [List.count_eq_zero_of_not_mem ha]
        omega
    have hsub : body ⊆ existing.map Block.id := by
      intro i hi
      exact List.elem_iff.mp (List.all_eq_true.mp g4 i hi)
    have hlen : (existing.map Block.id).length ≤ body.length := by
      rw [List.length_map]
      simp only [bne_iff_ne, ne_eq, not_not] at g2
      omega
    have hP : body.Perm (existing.map Block.id) :=
      (List.subperm_of_subset hbnd hsub).perm_of_length_le hlen
    have hmap : (body.filterMap (fun id => existing.find? (fun b => b.id == id))).map Block.id
        = body :=
      filterMap_map_id_of_exists existing body (fun i hi => hex i (hP.subset hi))
    have hperm : (body.filterMap (fun id => existing.find? (fun b => b.id == id))).Perm
        existing := by
      have step1 := List.Perm.filterMap (fun id => existing.find? (fun b => b.id == id)) hP
      have step2 : (existing.map Block.id).filterMap
          (fun id => existing.find? (fun b => b.id == id))
          = existing.filterMap (fun b => existing.find? (fun x => x.id == b.id)) := by
        rw [List.filterMap_map]
        rfl
      have step3 : existing.filterMap (fun b => existing.find? (fun x => x.id == b.id))
          = existing :=
        filterMap_congr_self existing _ (fun b hb => find?_id_eq_self_of_nodup existing hnd b hb)
      rw [step2, step3] at step1
      exact step1
    refine ⟨⟨fun _ => hP, fun _ => ⟨_, by rw [hres]⟩⟩, fun hnP => absurd hP hnP, fun _ => ?_⟩
    rw [hres]
    exact ⟨hmap, hperm⟩

/-- Witness for `reorder_permutation_check`: reversing a two-block store is
accepted and stores the same blocks in the submitted order. -/
theorem reorder_permutation_check_witness :
    (reorderBlocksPut
        [Block.text "a" "one" .paragraph, Block.text "b" "two" .h1]
        ["b", "a"]).1.map Block.id = ["b", "a"]
    ∧ (reorderBlocksPut
        [Block.text "a" "one" .paragraph, Block.text "b" "two" .h1]
        ["b", "a"]).1.Perm
      [Block.text "a" "one" .paragraph, Block.text "b" "two" .h1] :=
  (reorder_permutation_check
    [Block.text "a" "one" .paragraph, Block.text "b" "two" .h1]
    ["b", "a"] (by decide) (by decide)).2.2 (by decide)
